import Mathlib

/-
Verification of the gollm / fluxllm unified LLM client library.

The Go sources are shallowly embedded: Go structs become Lean structures,
pure translation functions become Lean functions, stateful operations are
modelled by explicit state passing (key/value store as a function from keys
to stored values, streams as state machines over the remaining wire events),
and wall-clock time is threaded as an explicit parameter.  Go `int` fields
are modelled as Int, Go `*T` option fields as Option, Go `float64` knobs
(never computed on by the embedded code, only copied) as Rat.
-/

namespace Gollm

/-! ## Anthropic wire types (anthropic types.go) -/

namespace Anthropic

/-- Message in Anthropic wire format: struct Message { Role, Content string }. -/
structure Message where
  role : String
  content : String
deriving DecidableEq, Repr

/-- Content block of an Anthropic response: struct Content { Type, Text string }. -/
structure Content where
  type_ : String
  text : String
deriving DecidableEq, Repr

/-- Token usage in an Anthropic response. -/
structure Usage where
  inputTokens : Int
  outputTokens : Int
deriving DecidableEq, Repr

/-- Anthropic API request: struct Request with model, mandatory max_tokens,
messages, optional top-level system string (zero value: empty string),
optional sampling knobs and stream flag. -/
structure Request where
  model : String
  maxTokens : Int
  messages : List Message
  system : String
  temperature : Option Rat
  topP : Option Rat
  stream : Option Bool
deriving DecidableEq, Repr

/-- Anthropic synchronous response: struct Response. -/
structure Response where
  id : String
  type_ : String
  role : String
  content : List Content
  model : String
  stopReason : String
  usage : Usage
deriving DecidableEq, Repr

/-- Delta payload of a streaming event: struct StreamDelta. -/
structure StreamDelta where
  type_ : String
  text : String
  stopReason : String
deriving DecidableEq, Repr

/-- Message metadata carried on message_start events: struct StreamMessage. -/
structure StreamMessage where
  id : String
  type_ : String
  role : String
  model : String
  usage : Usage
deriving DecidableEq, Repr

/-- Usage on streaming events: struct StreamUsage. -/
structure StreamUsage where
  outputTokens : Int
deriving DecidableEq, Repr

/-- Streaming event from the Anthropic API: struct StreamEvent. -/
structure StreamEvent where
  type_ : String
  index : Option Int
  delta : Option StreamDelta
  message : Option StreamMessage
  contentBlock : Option Content
  usage : Option StreamUsage
deriving DecidableEq, Repr

end Anthropic

/-! ## Canonical types (provider/types.go) -/

/-- Role is a closed enumeration over the four canonical role strings. -/
inductive Role where
  | system
  | user
  | assistant
  | tool
deriving DecidableEq, Repr

/-- Underlying string of a Role value (Go Role is a string type; this is the
string conversion the adapters apply with string(msg.Role)). -/
def Role.toWire : Role → String
  | .system => "system"
  | .user => "user"
  | .assistant => "assistant"
  | .tool => "tool"

/-- Boolean test mirroring the Go comparison msg.Role == RoleSystem. -/
def Role.isSystemB : Role → Bool
  | .system => true
  | _ => false

/-- Boolean test mirroring the Go comparison msg.Role == RoleTool. -/
def Role.isToolB : Role → Bool
  | .tool => true
  | _ => false

/-- Values stored in a Go map[string]any bag, restricted to the value shapes
the embedded code actually stores. -/
inductive MetaValue where
  | str : String → MetaValue
  | contentBlocks : List Anthropic.Content → MetaValue
  | streamDelta : Option Anthropic.StreamDelta → MetaValue
  | streamMessage : Option Anthropic.StreamMessage → MetaValue
  | streamUsage : Option Anthropic.StreamUsage → MetaValue
  | intVal : Option Int → MetaValue
deriving DecidableEq, Repr

/-- Provider metadata bag: map[string]any modelled as an association list. -/
abbrev Metadata := List (String × MetaValue)

/-- ToolFunction { Name, Arguments string }. -/
structure ToolFunction where
  name : String
  arguments : String
deriving DecidableEq, Repr

/-- ToolCall { ID, Type string; Function ToolFunction }. -/
structure ToolCall where
  id : String
  type_ : String
  function : ToolFunction
deriving DecidableEq, Repr

/-- ToolSpec { Name, Description string; Parameters any }. -/
structure ToolSpec where
  name : String
  description : String
  parameters : Option MetaValue
deriving DecidableEq, Repr

/-- Tool { Type string; Function ToolSpec }. -/
structure Tool where
  type_ : String
  function : ToolSpec
deriving DecidableEq, Repr

/-- Canonical role-tagged message: provider.Message. -/
structure Message where
  role : Role
  content : String
  name : Option String
  toolCallID : Option String
  toolCalls : List ToolCall
deriving DecidableEq, Repr

/-- Canonical chat request: provider.ChatCompletionRequest.  Optional numeric
knobs are present-or-absent (Option); float64 knobs are carried opaquely. -/
structure ChatCompletionRequest where
  model : String
  messages : List Message
  maxTokens : Option Int
  temperature : Option Rat
  topP : Option Rat
  stream : Option Bool
  stop : List String
  presencePenalty : Option Rat
  frequencyPenalty : Option Rat
  logitBias : List (String × Int)
  user : Option String
  tools : List Tool
  toolChoice : Option MetaValue
deriving DecidableEq, Repr

/-- Usage record: provider.Usage. -/
structure Usage where
  promptTokens : Int
  completionTokens : Int
  totalTokens : Int
deriving DecidableEq, Repr

/-- Choice of a response or chunk: provider.ChatCompletionChoice. -/
structure ChatCompletionChoice where
  index : Int
  message : Message
  delta : Option Message
  finishReason : Option String
deriving DecidableEq, Repr

/-- Canonical response: provider.ChatCompletionResponse. -/
structure ChatCompletionResponse where
  id : String
  object : String
  created : Int
  model : String
  systemFingerprint : Option String
  choices : List ChatCompletionChoice
  usage : Usage
  providerMetadata : Metadata
deriving DecidableEq, Repr

/-- Streaming chunk: provider.ChatCompletionChunk. -/
structure ChatCompletionChunk where
  id : String
  object : String
  created : Int
  model : String
  systemFingerprint : Option String
  choices : List ChatCompletionChoice
  usage : Option Usage
  providerMetadata : Metadata
deriving DecidableEq, Repr

/-! ## Anthropic provider adapter (providers/anthropic adapter, the fluxllm
variant with provider metadata and streaming, which the claims cite) -/

namespace AnthropicAdapter

/-- Loop body of the message conversion in Provider.CreateChatCompletion and
Provider.CreateChatCompletionStream: iterate over the canonical messages in
order; a system message overwrites the systemMessage accumulator (so the last
one wins); user and assistant messages are appended to the Anthropic message
list with string(msg.Role); any other role (tool) is skipped. -/
def extractLoop (systemMessage : String) (out : List Anthropic.Message) :
    List Message → String × List Anthropic.Message
  | [] => (systemMessage, out)
  | msg :: rest =>
    match msg.role with
    | .system => extractLoop msg.content out rest
    | .user => extractLoop systemMessage (out ++ [⟨Role.toWire .user, msg.content⟩]) rest
    | .assistant =>
        extractLoop systemMessage (out ++ [⟨Role.toWire .assistant, msg.content⟩]) rest
    | .tool => extractLoop systemMessage out rest

/-- Request translation performed by the Anthropic adapter in
Provider.CreateChatCompletion: max_tokens defaults to 4096 when absent,
temperature and top_p are copied, the message loop separates the system
message, and the top-level system field is set when non-empty (the struct's
zero value is the empty string, so the conditional assignment is modelled by
the if-expression below). -/
def convertRequest (req : ChatCompletionRequest) : Anthropic.Request :=
  let maxTokens : Int :=
    match req.maxTokens with
    | some v => v
    | none => 4096
  let extracted := extractLoop ("") [] req.messages
  { model := req.model
    maxTokens := maxTokens
    messages := extracted.2
    system := if extracted.1 ≠ "" then extracted.1 else ""
    temperature := req.temperature
    topP := req.topP
    stream := none }

/-- Request translation performed by Provider.CreateChatCompletionStream; the
source duplicates the conversion code of the synchronous path verbatim. -/
def convertRequestStream (req : ChatCompletionRequest) : Anthropic.Request :=
  let maxTokens : Int :=
    match req.maxTokens with
    | some v => v
    | none => 4096
  let extracted := extractLoop ("") [] req.messages
  { model := req.model
    maxTokens := maxTokens
    messages := extracted.2
    system := if extracted.1 ≠ "" then extracted.1 else ""
    temperature := req.temperature
    topP := req.topP
    stream := none }

/-- Response translation performed by Provider.CreateChatCompletion: the
canonical content is the text of the first content block when its type is
"text" (and the empty string otherwise); the full vendor block list and the
other Anthropic response fields are preserved in the provider metadata bag;
Created is time.Now().Unix(), threaded here as the now parameter. -/
def convertResponse (now : Int) (resp : Anthropic.Response) : ChatCompletionResponse :=
  let content : String :=
    match resp.content with
    | c :: _ => if c.type_ = "text" then c.text else ""
    | [] => ""
  let metadata : Metadata :=
    [(("anthropic_type"), MetaValue.str resp.type_),
     (("anthropic_role"), MetaValue.str resp.role),
     (("anthropic_content"), MetaValue.contentBlocks resp.content),
     (("anthropic_stop_reason"), MetaValue.str resp.stopReason)]
  { id := resp.id
    object := ("chat.completion")
    created := now
    model := resp.model
    systemFingerprint := none
    choices :=
      [{ index := 0
         message :=
           { role := .assistant, content := content, name := none,
             toolCallID := none, toolCalls := [] }
         delta := none
         finishReason := some resp.stopReason }]
    usage :=
      { promptTokens := resp.usage.inputTokens
        completionTokens := resp.usage.outputTokens
        totalTokens := resp.usage.inputTokens + resp.usage.outputTokens }
    providerMetadata := metadata }

end AnthropicAdapter

/-- Conversion a kept canonical message undergoes in the Anthropic adapter
loop: the role is string(msg.Role), the content is copied. -/
def toAnthMessage (m : Message) : Anthropic.Message :=
  { role := m.role.toWire, content := m.content }

/-- Roles the Anthropic adapter loop copies into the wire message list (the
switch handles user and assistant; system feeds the top-level field and any
other role is skipped). -/
def keptByAnthropic (m : Message) : Bool :=
  match m.role with
  | .user => true
  | .assistant => true
  | _ => false

/-! ## Specification-side definitions used to compare against the code -/

/-- Last message with role system of a canonical message list (the spec's
"last such system message"): a system message in the tail wins over an
earlier one. -/
def lastSystemMessage : List Message → Option Message
  | [] => none
  | m :: rest =>
    match lastSystemMessage rest with
    | some x => some x
    | none => if m.role.isSystemB then some m else none

/-- Concatenation of the text of all blocks whose type is "text", following
the spec sentence for the canonical content field of an Anthropic response
(the code is compared against this definition). -/
def textBlockConcat (blocks : List Anthropic.Content) : String :=
  ((blocks.filter (fun b => b.type_ = ("text"))).map (fun b => b.text)).foldl
    (fun acc t => acc ++ t) ("")

/-! ## Memory manager (memory.go: MemoryConfig, ConversationMemory,
MemoryManager operations over the key/value store) -/

/-- MemoryConfig { MaxMessages int; TTL time.Duration; KeyPrefix string }.
Go int is modelled as Int (a negative MaxMessages is representable and simply
fails the MaxMessages > 0 guard, as in the source). -/
structure MemoryConfig where
  maxMessages : Int
  ttl : Int
  keyPrefix : String
deriving DecidableEq, Repr

/-- ConversationMemory { SessionID, Messages, CreatedAt, UpdatedAt, Metadata }.
Timestamps are epoch values; Metadata is map[string]any, with Option
distinguishing the Go nil map from an allocated empty map. -/
structure ConversationMemory where
  sessionID : String
  messages : List Message
  createdAt : Int
  updatedAt : Int
  metadata : Option Metadata
deriving DecidableEq, Repr

/-- Value held by the key/value store at a key: either a stored conversation
document or a raw string (DeleteConversation writes the empty string). -/
inductive StoreValue where
  | conv : ConversationMemory → StoreValue
  | str : String → StoreValue
deriving DecidableEq, Repr

/-- The external key/value store: a partial map from keys to stored values. -/
def Store := String → Option StoreValue

/-- The empty key/value store. -/
def emptyStore : Store := fun _ => none

/-- kvs.GetAny deserialized into a ConversationMemory: returns the decoded
conversation, or none when the key is absent or the stored value does not
decode to a conversation document (for example the empty-string tombstone). -/
def getAny (st : Store) (key : String) : Option ConversationMemory :=
  match st key with
  | some (StoreValue.conv c) => some c
  | some (StoreValue.str _) => none
  | none => none

/-- kvs.SetAny: store the conversation document at the key. -/
def setAny (st : Store) (key : String) (c : ConversationMemory) : Store :=
  fun k => if k = key then some (StoreValue.conv c) else st k

/-- MemoryManager.buildKey: fmt.Sprintf with a single colon separator. -/
def buildKey (cfg : MemoryConfig) (sessionID : String) : String :=
  cfg.keyPrefix ++ (":") ++ sessionID

/-- MemoryManager.LoadConversation: read the key; when GetAny fails (absent
or undecodable) return a freshly constructed empty conversation with the
given session id, current timestamps and an allocated empty metadata map —
with no error.  The now parameter stands for time.Now(). -/
def loadConversation (cfg : MemoryConfig) (st : Store) (now : Int)
    (sessionID : String) : ConversationMemory :=
  match getAny st (buildKey cfg sessionID) with
  | some conversation => conversation
  | none =>
      { sessionID := sessionID
        messages := []
        createdAt := now
        updatedAt := now
        metadata := some [] }

/-- Message-cap policy applied by MemoryManager.SaveConversation: when
MaxMessages > 0 and the list is longer, partition into system messages and
the rest (one pass, order preserved); when maxOthers = MaxMessages - number
of system messages is positive and the others exceed it, keep only the most
recent maxOthers others; concatenate system messages with the kept others.
Nothing else is truncated (in particular nothing is dropped when maxOthers
is not positive). -/
def pruneMessages (maxMessages : Int) (ms : List Message) : List Message :=
  if 0 < maxMessages ∧ maxMessages < (ms.length : Int) then
    let parts := ms.partition (fun m => m.role.isSystemB)
    let systemMessages := parts.1
    let otherMessages := parts.2
    let maxOthers : Int := maxMessages - (systemMessages.length : Int)
    let keptOthers :=
      if 0 < maxOthers ∧ maxOthers < (otherMessages.length : Int) then
        otherMessages.drop (otherMessages.length - maxOthers.toNat)
      else otherMessages
    systemMessages ++ keptOthers
  else ms

/-- MemoryManager.SaveConversation: apply the message cap, stamp UpdatedAt
with now, and write the document at buildKey. -/
def saveConversation (cfg : MemoryConfig) (st : Store) (now : Int)
    (conversation : ConversationMemory) : Store :=
  let pruned :=
    { conversation with
        messages := pruneMessages cfg.maxMessages conversation.messages
        updatedAt := now }
  setAny st (buildKey cfg conversation.sessionID) pruned

/-- MemoryManager.AppendMessage: load, append one message, save. -/
def appendMessage (cfg : MemoryConfig) (st : Store) (now : Int)
    (sessionID : String) (message : Message) : Store :=
  let conversation := loadConversation cfg st now sessionID
  saveConversation cfg st now
    { conversation with messages := conversation.messages ++ [message] }

/-- MemoryManager.AppendMessages: load, append a batch, save. -/
def appendMessages (cfg : MemoryConfig) (st : Store) (now : Int)
    (sessionID : String) (msgs : List Message) : Store :=
  let conversation := loadConversation cfg st now sessionID
  saveConversation cfg st now
    { conversation with messages := conversation.messages ++ msgs }

/-! ## Streams: the underlying HTTP response body and the per-dialect
stream objects with their Recv/Close code -/

/-- Error values are carried as strings (Go error messages). -/
abbrev Err := String

/-- The net/http response body a stream wraps.  Its Close is idempotent: the
first Close reports the transport's close result, every later Close finds
the closed flag set and returns nil without further effect (net/http body
semantics, the actual runtime type at every stream construction site). -/
structure HTTPBody where
  closed : Bool
  closeErr : Option Err
deriving DecidableEq, Repr

/-- Close of the underlying HTTP response body. -/
def HTTPBody.close (b : HTTPBody) : Option Err × HTTPBody :=
  if b.closed then (none, b)
  else (b.closeErr, { b with closed := true })

namespace OpenAI

/-- Partial message on an OpenAI stream delta. -/
structure OMessage where
  role : String
  content : String
  name : Option String
deriving DecidableEq, Repr

/-- Choice of an OpenAI stream chunk: struct StreamChoice. -/
structure StreamChoice where
  index : Int
  delta : Option OMessage
  finishReason : Option String
deriving DecidableEq, Repr

/-- OpenAI usage record. -/
structure OUsage where
  promptTokens : Int
  completionTokens : Int
  totalTokens : Int
deriving DecidableEq, Repr

/-- OpenAI stream chunk: struct StreamChunk. -/
structure StreamChunk where
  id : String
  object : String
  created : Int
  model : String
  choices : List StreamChoice
  usage : Option OUsage
deriving DecidableEq, Repr

/-- Result of one Stream.Recv call of the OpenAI dialect. -/
inductive RecvRes where
  | chunk : StreamChunk → RecvRes
  | eof
  | errClosed
  | errScan : Err → RecvRes
deriving DecidableEq, Repr

/-- The SSE data line tag. -/
def sseDataTag : String := "data: "

/-- The end-of-stream sentinel payload. -/
def doneSentinel : String := "[DONE]"

/-- strings.HasPrefix, modelled over the character sequence. -/
def strHasPrefix (p s : String) : Bool :=
  p.data.isPrefixOf s.data

/-- strings.TrimPrefix: the string without the prefix when it carries it,
the string unchanged otherwise. -/
def strTrimPrefix (p s : String) : String :=
  if strHasPrefix p s then ⟨s.data.drop p.data.length⟩ else s

/-- OpenAI Stream object: the scanner over the remaining SSE lines (with the
error the scanner would report once the lines are exhausted), the underlying
HTTP response body, and the closed flag. -/
structure Stream where
  lines : List String
  scanErr : Option Err
  body : HTTPBody
  closed : Bool
deriving DecidableEq, Repr

/-- Scanner loop of openai Stream.Recv, parameterized by the JSON decoder
dec (json.Unmarshal into StreamChunk; none models a decode failure): skip
blank lines; on a data line, return io.EOF for the literal sentinel payload,
skip the line when the JSON is malformed, and return the decoded chunk
otherwise; other lines are skipped; when the lines are exhausted report the
scanner error if any, else io.EOF. -/
def recvLoop (dec : String → Option StreamChunk) (scanErr : Option Err) :
    List String → RecvRes × List String
  | [] =>
      match scanErr with
      | some e => (.errScan e, [])
      | none => (.eof, [])
  | line :: rest =>
      if line = "" then recvLoop dec scanErr rest
      else if strHasPrefix sseDataTag line then
        let data := strTrimPrefix sseDataTag line
        if data = doneSentinel then (.eof, rest)
        else
          match dec data with
          | none => recvLoop dec scanErr rest
          | some chunk => (.chunk chunk, rest)
      else recvLoop dec scanErr rest

/-- openai Stream.Recv: fail with the stream-closed error when the stream was
closed, otherwise run the scanner loop and advance past the consumed lines. -/
def Stream.recv (dec : String → Option StreamChunk) (s : Stream) :
    RecvRes × Stream :=
  if s.closed then (.errClosed, s)
  else
    let out := recvLoop dec s.scanErr s.lines
    (out.1, { s with lines := out.2 })

/-- openai Stream.Close: on the first call set the closed flag and close the
response body, returning its result; later calls return nil untouched. -/
def Stream.close (s : Stream) : Option Err × Stream :=
  if !s.closed then
    let r := s.body.close
    (r.1, { s with closed := true, body := r.2 })
  else (none, s)

end OpenAI

namespace AnthropicStream

/-- anthropic Stream object: scanner state, response body and closed flag
(the scanner fields are irrelevant to the Close contract verified here). -/
structure Stream where
  lines : List String
  body : HTTPBody
  closed : Bool
deriving DecidableEq, Repr

/-- anthropic Stream.Close: identical guard to the OpenAI dialect — close the
body once, report nil on every later call. -/
def Stream.close (s : Stream) : Option Err × Stream :=
  if !s.closed then
    let r := s.body.close
    (r.1, { s with closed := true, body := r.2 })
  else (none, s)

end AnthropicStream

namespace Ollama

/-- ollama Stream object: a reader and the closer of the response body; the
ollama stream keeps no closed flag of its own. -/
structure Stream where
  lines : List String
  body : HTTPBody
deriving DecidableEq, Repr

/-- ollama Stream.Close: delegate every call to the underlying body. -/
def Stream.close (s : Stream) : Option Err × Stream :=
  let r := s.body.close
  (r.1, { s with body := r.2 })

end Ollama

/-! ## Client facade (client.go): observability hook firing and the
memory-aware completion, modelled as control-flow functions over the
results of the collaborators they call -/

/-- Hook invocations recorded in call order.  afterResponse carries the
response and error arguments the facade passes (the response is nil exactly
when the call failed, per the provider contract). -/
inductive HookEvent where
  | beforeRequest
  | afterResponse : Option ChatCompletionResponse → Option Err → HookEvent
  | wrapStream
deriving DecidableEq, Repr

/-- Result of a provider call: (value, error) with exactly one present. -/
inductive CallResult (α : Type) where
  | ok : α → CallResult α
  | fail : Err → CallResult α
deriving DecidableEq, Repr

/-- Response component the facade hands to AfterResponse. -/
def CallResult.toResp (r : CallResult ChatCompletionResponse) :
    Option ChatCompletionResponse :=
  match r with
  | .ok v => some v
  | .fail _ => none

/-- Error component the facade hands to AfterResponse. -/
def CallResult.toErr {α : Type} (r : CallResult α) : Option Err :=
  match r with
  | .ok _ => none
  | .fail e => some e

/-- ChatClient.CreateChatCompletion: with a hook configured, BeforeRequest
fires, the provider is called, and AfterResponse fires with the provider's
response and error regardless of success or failure; the provider result is
returned verbatim.  The returned list is the hook trace in call order. -/
def createChatCompletion (hasHook : Bool)
    (providerResult : CallResult ChatCompletionResponse) :
    List HookEvent × CallResult ChatCompletionResponse :=
  let before := if hasHook then [HookEvent.beforeRequest] else []
  let after :=
    if hasHook then
      [HookEvent.afterResponse providerResult.toResp providerResult.toErr]
    else []
  (before ++ after, providerResult)

/-- Opaque stand-in for the stream object a provider returns. -/
structure StreamHandle where
  tag : Int
deriving DecidableEq, Repr

/-- ChatClient.CreateChatCompletionStream: BeforeRequest fires, the provider
is called; when stream construction fails AfterResponse fires with a nil
response and the error and the error is returned; on success WrapStream
fires (no AfterResponse) and the wrapped stream is returned. -/
def createChatCompletionStream (hasHook : Bool)
    (providerResult : CallResult StreamHandle) :
    List HookEvent × CallResult StreamHandle :=
  let before := if hasHook then [HookEvent.beforeRequest] else []
  match providerResult with
  | .fail e =>
      (before ++ (if hasHook then [HookEvent.afterResponse none (some e)] else []),
       .fail e)
  | .ok s =>
      (before ++ (if hasHook then [HookEvent.wrapStream] else []), .ok s)

/-- ChatClient.CreateChatCompletionWithMemory, after the underlying LLM call:
when the call failed the error is returned; when it succeeded with at least
one choice the facade appends the request messages followed by the first
choice's message to the stored conversation, and a failure of that append is
only logged — the successful response is returned with a nil error.  The
first component is the call result handed to the caller, the second the
payload of the attempted memory append (none when no append was attempted),
the third the logged save error (none when nothing was logged). -/
def createChatCompletionWithMemory (reqMessages : List Message)
    (providerResult : CallResult ChatCompletionResponse)
    (appendErr : Option Err) :
    CallResult ChatCompletionResponse × Option (List Message) × Option Err :=
  match providerResult with
  | .fail e => (.fail e, none, none)
  | .ok response =>
      match response.choices with
      | [] => (.ok response, none, none)
      | choice :: _ =>
          (.ok response, some (reqMessages ++ [choice.message]), appendErr)

/-! ## Memory-aware stream decorator (client.go: memoryAwareStream) -/

/-- Outcome of one Recv on the wrapped provider stream: a chunk, or an error
whose message is compared against the literal "EOF" by the decorator. -/
inductive WireRecv where
  | chunk : ChatCompletionChunk → WireRecv
  | failure : Err → WireRecv
deriving DecidableEq, Repr

/-- State of a memoryAwareStream: the wrapped stream (as the list of its
remaining Recv outcomes; an exhausted list keeps yielding io.EOF), the
response buffer, the streamClosed flag, and the list of message batches
appended to the conversation store so far (the saves field records each
performed append). -/
structure MemAwareState where
  rest : List WireRecv
  responseBuffer : String
  streamClosed : Bool
  saves : List (List Message)
deriving DecidableEq, Repr

/-- Initial decorator state wrapping a stream with the given outcomes. -/
def initMemAware (events : List WireRecv) : MemAwareState :=
  { rest := events, responseBuffer := "", streamClosed := false, saves := [] }

/-- memoryAwareStream.saveBufferedResponse: when the buffer is non-empty,
append the request messages followed by the assembled assistant message to
the stored conversation (a failure of that append is logged and ignored, so
it does not alter the control flow modelled here). -/
def saveBufferedResponse (reqMessages : List Message) (s : MemAwareState) :
    MemAwareState :=
  if 0 < s.responseBuffer.length then
    let assistantMessage : Message :=
      { role := .assistant, content := s.responseBuffer, name := none,
        toolCallID := none, toolCalls := [] }
    { s with saves := s.saves ++ [reqMessages ++ [assistantMessage]] }
  else s

/-- memoryAwareStream.Recv: pull from the wrapped stream; on an error whose
message is "EOF", if the save has not happened yet perform it and set
streamClosed; on a chunk, append the first choice's delta content (when
present) to the buffer.  Returns the forwarded Recv outcome. -/
def memRecv (reqMessages : List Message) (s : MemAwareState) :
    WireRecv × MemAwareState :=
  match s.rest with
  | [] =>
      let out := WireRecv.failure ("EOF")
      if !s.streamClosed then
        (out, { saveBufferedResponse reqMessages s with streamClosed := true })
      else (out, s)
  | WireRecv.failure e :: rest =>
      let s1 := { s with rest := rest }
      if e = ("EOF") ∧ !s1.streamClosed then
        (WireRecv.failure e,
         { saveBufferedResponse reqMessages s1 with streamClosed := true })
      else (WireRecv.failure e, s1)
  | WireRecv.chunk c :: rest =>
      let s1 := { s with rest := rest }
      match c.choices with
      | [] => (WireRecv.chunk c, s1)
      | choice :: _ =>
          match choice.delta with
          | some delta =>
              (WireRecv.chunk c,
               { s1 with responseBuffer := s1.responseBuffer ++ delta.content })
          | none => (WireRecv.chunk c, s1)

/-- memoryAwareStream.Close: when the save has not happened yet perform it
and set streamClosed, then close the wrapped stream. -/
def memClose (reqMessages : List Message) (s : MemAwareState) : MemAwareState :=
  if !s.streamClosed then
    { saveBufferedResponse reqMessages s with streamClosed := true }
  else s

/-- An operation a caller may perform on the decorator. -/
inductive MemOp where
  | recv
  | close
deriving DecidableEq, Repr

/-- Run a sequence of Recv/Close calls against the decorator. -/
def runMemOps (reqMessages : List Message) : List MemOp → MemAwareState →
    MemAwareState
  | [], s => s
  | MemOp.recv :: ops, s => runMemOps reqMessages ops (memRecv reqMessages s).2
  | MemOp.close :: ops, s => runMemOps reqMessages ops (memClose reqMessages s)

/-! ## Small helpers and concrete inputs used by the theorems below -/

/-- Content of the first choice's message (the canonical content field of a
response with one choice). -/
def firstChoiceContent (r : ChatCompletionResponse) : String :=
  match r.choices with
  | c :: _ => c.message.content
  | [] => ""

/-- Canonical message with only role and content set. -/
def mkMsg (r : Role) (c : String) : Message :=
  { role := r, content := c, name := none, toolCallID := none, toolCalls := [] }

/-- Canonical request carrying the given messages and no optional knobs. -/
def reqOf (msgs : List Message) : ChatCompletionRequest :=
  { model := ("m"), messages := msgs, maxTokens := none, temperature := none,
    topP := none, stream := none, stop := [], presencePenalty := none,
    frequencyPenalty := none, logitBias := [], user := none, tools := [],
    toolChoice := none }

/-- Memory configuration with a cap of one message. -/
def cfgOne : MemoryConfig := { maxMessages := 1, ttl := 0, keyPrefix := ("test") }

/-- Memory configuration with a cap of five messages. -/
def cfgFive : MemoryConfig := { maxMessages := 5, ttl := 0, keyPrefix := ("test") }

/-- A session id. -/
def sessA : String := "session1"

/-- Store obtained by appending a system message and then a user message to
an empty store under the one-message cap. -/
def storeC1 : Store :=
  appendMessage cfgOne
    (appendMessage cfgOne emptyStore 0 sessA (mkMsg .system ("You are helpful")))
    0 sessA (mkMsg .user ("Message A"))

/-- Store holding the empty-string tombstone a DeleteConversation writes. -/
def storeTomb : Store :=
  fun k => if k = buildKey cfgOne sessA then some (StoreValue.str ("")) else none

/-- Anthropic response whose content is two text blocks. -/
def respTwoBlocks : Anthropic.Response :=
  { id := ("msg1"), type_ := ("message"), role := ("assistant"),
    content := [{ type_ := ("text"), text := ("A") },
                { type_ := ("text"), text := ("B") }],
    model := ("claude"), stopReason := ("end_turn"),
    usage := { inputTokens := 1, outputTokens := 2 } }

/-- The second system message of the scenario request below. -/
def msgS2 : Message := mkMsg .system ("S2")

/-- Request of the spec's Anthropic extraction scenario: two system messages
interleaved with user and assistant turns. -/
def reqScenario : ChatCompletionRequest :=
  reqOf [mkMsg .system ("S1"), mkMsg .user ("U1"), msgS2,
         mkMsg .assistant ("A1"), mkMsg .user ("U2")]

/-- A concrete open OpenAI stream with no remaining lines. -/
def streamEx : OpenAI.Stream :=
  { lines := [], scanErr := none,
    body := { closed := false, closeErr := none }, closed := false }

/-- The same stream after its Close. -/
def streamExClosed : OpenAI.Stream :=
  { lines := [], scanErr := none,
    body := { closed := true, closeErr := none }, closed := true }

/-- A concrete OpenAI stream chunk. -/
def chunk0 : OpenAI.StreamChunk :=
  { id := ("c1"), object := ("chat.completion.chunk"), created := 0,
    model := ("m"), choices := [], usage := none }

/-- A concrete decoder standing in for json.Unmarshal: accepts exactly the
payload ok. -/
def dec0 : String → Option OpenAI.StreamChunk :=
  fun s => if s = ("ok") then some chunk0 else none

/-- A concrete successful canonical response with one choice. -/
def respOK : ChatCompletionResponse :=
  { id := ("r1"), object := ("chat.completion"), created := 0, model := ("m"),
    systemFingerprint := none,
    choices := [{ index := 0, message := mkMsg .assistant ("Hello"),
                  delta := none, finishReason := none }],
    usage := { promptTokens := 0, completionTokens := 0, totalTokens := 0 },
    providerMetadata := [] }

/-- A conversation used to witness the pruning theorem: one system directive
followed by seven user turns. -/
def convSeven : ConversationMemory :=
  { sessionID := sessA
    messages :=
      mkMsg .system ("You are helpful") ::
        ([("A"), ("B"), ("C"), ("D"), ("E"), ("F"), ("G")].map
          (fun c => mkMsg .user c))
    createdAt := 0
    updatedAt := 0
    metadata := some [] }

/-! ## Lemmas about the Anthropic adapter message loop -/

theorem ite_ne_empty_eq (s : String) : (if s ≠ ("") then s else ("")) = s := by
  by_cases h : s = ("") <;> simp [h]

theorem extractLoop_fst (ms : List Message) : ∀ (sys : String)
    (out : List Anthropic.Message),
    (AnthropicAdapter.extractLoop sys out ms).1
      = match lastSystemMessage ms with
        | some m => m.content
        | none => sys := by
  induction ms with
  | nil => intro sys out; rfl
  | cons m rest ih =>
      intro sys out
      cases hr : m.role <;>
        cases hl : lastSystemMessage rest <;>
          simp [AnthropicAdapter.extractLoop, lastSystemMessage, hr, hl, ih,
            Role.isSystemB]

theorem extractLoop_snd (ms : List Message) : ∀ (sys : String)
    (out : List Anthropic.Message),
    (AnthropicAdapter.extractLoop sys out ms).2
      = out ++ (ms.filter keptByAnthropic).map toAnthMessage := by
  induction ms with
  | nil => intro sys out; simp [AnthropicAdapter.extractLoop]
  | cons m rest ih =>
      intro sys out
      cases hr : m.role <;>
        simp [AnthropicAdapter.extractLoop, keptByAnthropic, hr, ih,
          List.filter_cons, toAnthMessage]

theorem extractLoop_drop_tool (ms : List Message) : ∀ (sys : String)
    (out : List Anthropic.Message),
    AnthropicAdapter.extractLoop sys out
        (ms.filter (fun m => !m.role.isToolB))
      = AnthropicAdapter.extractLoop sys out ms := by
  induction ms with
  | nil => intro sys out; rfl
  | cons m rest ih =>
      intro sys out
      have hk : ∀ mm : Message, mm.role = Role.tool → (!mm.role.isToolB) = false := by
        intro mm hmm; simp [Role.isToolB, hmm]
      have hk2 : ∀ mm : Message, mm.role ≠ Role.tool → (!mm.role.isToolB) = true := by
        intro mm hmm; cases hr : mm.role <;> simp_all [Role.isToolB]
      cases hr : m.role
      case tool =>
        rw [List.filter_cons, hk m hr]
        simp only [Bool.false_eq_true, if_false]
        rw [ih sys out]
        simp [AnthropicAdapter.extractLoop, hr]
      case system =>
        rw [List.filter_cons, hk2 m (by simp [hr])]
        simp only [if_true]
        simp [AnthropicAdapter.extractLoop, hr, ih]
      case user =>
        rw [List.filter_cons, hk2 m (by simp [hr])]
        simp only [if_true]
        simp [AnthropicAdapter.extractLoop, hr, ih]
      case assistant =>
        rw [List.filter_cons, hk2 m (by simp [hr])]
        simp only [if_true]
        simp [AnthropicAdapter.extractLoop, hr, ih]

theorem kept_roles_not_system (ms : List Message) :
    (((ms.filter keptByAnthropic).map toAnthMessage).all
      (fun am => am.role != ("system"))) = true := by
  induction ms with
  | nil => rfl
  | cons m rest ih =>
      cases hk : keptByAnthropic m
      · rw [List.filter_cons, hk]
        simp only [Bool.false_eq_true, if_false]
        exact ih
      · rw [List.filter_cons, hk]
        simp only [if_true, List.map_cons, List.all_cons, Bool.and_eq_true]
        refine ⟨?_, ih⟩
        cases hr : m.role <;>
          simp_all [keptByAnthropic, toAnthMessage, Role.toWire]

theorem kept_roles_user_or_assistant (ms : List Message) :
    (((ms.filter keptByAnthropic).map toAnthMessage).all
      (fun am => am.role == ("user") || am.role == ("assistant"))) = true := by
  induction ms with
  | nil => rfl
  | cons m rest ih =>
      cases hk : keptByAnthropic m
      · rw [List.filter_cons, hk]
        simp only [Bool.false_eq_true, if_false]
        exact ih
      · rw [List.filter_cons, hk]
        simp only [if_true, List.map_cons, List.all_cons, Bool.and_eq_true]
        refine ⟨?_, ih⟩
        cases hr : m.role <;>
          simp_all [keptByAnthropic, toAnthMessage, Role.toWire]

/-! ## Claim C2 -/

/-- C2: for every chat request translated by the Anthropic adapter (both the
synchronous and the streaming path) whose message list contains at least one
system message, the on-wire request carries exactly the content of the last
system message as its top-level system field, and the on-wire messages array
contains zero system-role entries. -/
theorem anthropic_system_split (req : ChatCompletionRequest) (m : Message)
    (hm : lastSystemMessage req.messages = some m) :
    (AnthropicAdapter.convertRequest req).system = m.content ∧
    (AnthropicAdapter.convertRequestStream req).system = m.content ∧
    ((AnthropicAdapter.convertRequest req).messages.all
      (fun am => am.role != ("system"))) = true ∧
    ((AnthropicAdapter.convertRequestStream req).messages.all
      (fun am => am.role != ("system"))) = true := by
  have h1 := extractLoop_fst req.messages ("") []
  have h2 := extractLoop_snd req.messages ("") []
  rw [hm] at h1
  have hsys : (AnthropicAdapter.extractLoop ("") [] req.messages).1 = m.content := by
    simpa using h1
  refine ⟨?_, ?_, ?_, ?_⟩
  · simp [AnthropicAdapter.convertRequest, hsys]
    intro h; exact h.symm
  · simp [AnthropicAdapter.convertRequestStream, hsys]
    intro h; exact h.symm
  · simp [AnthropicAdapter.convertRequest, h2, kept_roles_not_system]
  · simp [AnthropicAdapter.convertRequestStream, h2, kept_roles_not_system]

/-- Witness for C2 at the spec's extraction scenario: the request holds two
system messages and the second one is extracted. -/
theorem anthropic_system_split_witness :
    lastSystemMessage reqScenario.messages = some msgS2 ∧
    ((AnthropicAdapter.convertRequest reqScenario).system = msgS2.content ∧
     (AnthropicAdapter.convertRequestStream reqScenario).system = msgS2.content ∧
     ((AnthropicAdapter.convertRequest reqScenario).messages.all
       (fun am => am.role != ("system"))) = true ∧
     ((AnthropicAdapter.convertRequestStream reqScenario).messages.all
       (fun am => am.role != ("system"))) = true) :=
  ⟨by decide, anthropic_system_split reqScenario msgS2 (by decide)⟩

/-! ## Claim C10 -/

/-- C10: the Anthropic adapter silently drops messages whose role is tool in
both translation paths: translating a request equals translating the same
request with its tool messages removed, and every entry of the on-wire
messages array carries role user or assistant (so no tool-derived entry
appears there nor in the system field). -/
theorem anthropic_drops_tool_messages (req : ChatCompletionRequest) :
    AnthropicAdapter.convertRequest
        { req with messages := req.messages.filter (fun m => !m.role.isToolB) }
      = AnthropicAdapter.convertRequest req ∧
    AnthropicAdapter.convertRequestStream
        { req with messages := req.messages.filter (fun m => !m.role.isToolB) }
      = AnthropicAdapter.convertRequestStream req ∧
    ((AnthropicAdapter.convertRequest req).messages.all
      (fun am => am.role == ("user") || am.role == ("assistant"))) = true ∧
    ((AnthropicAdapter.convertRequestStream req).messages.all
      (fun am => am.role == ("user") || am.role == ("assistant"))) = true := by
  have h2 := extractLoop_snd req.messages ("") []
  refine ⟨?_, ?_, ?_, ?_⟩ <;>
    simp [AnthropicAdapter.convertRequest, AnthropicAdapter.convertRequestStream,
      extractLoop_drop_tool, h2, kept_roles_user_or_assistant]

/-! ## Claim C3 -/

/-- C3 counterexample: for the Anthropic response whose content is the two
text blocks A and B, the canonical content field is A, not the concatenation
AB of all text blocks — refuting the claim at this concrete input. -/
theorem anthropic_content_concat_counterexample :
    ¬ (firstChoiceContent (AnthropicAdapter.convertResponse 0 respTwoBlocks)
        = textBlockConcat respTwoBlocks.content) := by
  decide

/-- C3 amended: the canonical content field equals the text of the first
content block when that block's type is text (and is empty otherwise — later
text blocks are not concatenated); the full vendor block list is preserved
under the provider-metadata key anthropic_content. -/
theorem anthropic_first_block_text_and_metadata (now : Int)
    (resp : Anthropic.Response) :
    firstChoiceContent (AnthropicAdapter.convertResponse now resp)
      = (match resp.content with
         | c :: _ => if c.type_ = ("text") then c.text else ("")
         | [] => ("")) ∧
    List.lookup ("anthropic_content")
        (AnthropicAdapter.convertResponse now resp).providerMetadata
      = some (MetaValue.contentBlocks resp.content) := by
  constructor
  · cases h : resp.content with
    | nil => simp [AnthropicAdapter.convertResponse, firstChoiceContent, h]
    | cons c rest => simp [AnthropicAdapter.convertResponse, firstChoiceContent, h]
  · rfl

/-! ## Lemmas about the message-cap policy -/

theorem pruneMessages_filter_system (maxMessages : Int) (ms : List Message) :
    (pruneMessages maxMessages ms).filter (fun m => m.role.isSystemB)
      = ms.filter (fun m => m.role.isSystemB) := by
  unfold pruneMessages
  split
  · rw [List.partition_eq_filter_filter]
    simp only [Function.comp_def]
    rw [List.filter_append]
    have hsys : (ms.filter (fun m => m.role.isSystemB)).filter
        (fun m => m.role.isSystemB) = ms.filter (fun m => m.role.isSystemB) := by
      rw [List.filter_filter]
      simp
    have hothers : ∀ (l : List Message),
        l ⊆ ms.filter (fun m => !m.role.isSystemB) →
        l.filter (fun m => m.role.isSystemB) = [] := by
      intro l hl
      rw [List.filter_eq_nil_iff]
      intro a ha
      have := hl ha
      rw [List.mem_filter] at this
      simpa using this.2
    split
    · rw [hsys, hothers _ (List.drop_subset _ _)]
      simp
    · rw [hsys, hothers _ (fun a ha => ha)]
      simp
  · rfl

theorem pruneMessages_length_le (maxMessages : Int) (ms : List Message)
    (hM : 0 < maxMessages)
    (hsys : ((ms.filter (fun m => m.role.isSystemB)).length : Int) < maxMessages) :
    ((pruneMessages maxMessages ms).length : Int) ≤ maxMessages := by
  unfold pruneMessages
  split
  case isTrue h =>
    rw [List.partition_eq_filter_filter]
    simp only []
    split
    case isTrue hin =>
      simp only [List.length_append, List.length_drop]
      push_cast
      omega
    case isFalse hin =>
      simp only [List.length_append]
      rw [Classical.not_and_iff_or_not_not] at hin
      push_cast
      omega
  case isFalse h =>
    rw [Classical.not_and_iff_or_not_not] at h
    omega

theorem pruneMessages_headroom_nonpos (maxMessages : Int) (ms : List Message)
    (hsys : maxMessages ≤ ((ms.filter (fun m => m.role.isSystemB)).length : Int))
    (hlen : maxMessages < (ms.length : Int)) (hM : 0 < maxMessages) :
    pruneMessages maxMessages ms
      = ms.filter (fun m => m.role.isSystemB)
        ++ ms.filter (fun m => !m.role.isSystemB) := by
  unfold pruneMessages
  rw [if_pos ⟨hM, hlen⟩, List.partition_eq_filter_filter]
  simp only [Function.comp_def]
  split
  case isTrue hin => exfalso; omega
  case isFalse hin => rfl

/-! ## Claim C1 -/

/-- C1 counterexample: with a cap of one message, appending a system message
and then a user message to an empty store leaves a stored list of two
messages — the stored length exceeds MaxMessages, refuting the claimed
bound (and with it the claimed truncation of excess system messages). -/
theorem memory_cap_counterexample :
    ¬ (((loadConversation cfgOne storeC1 0 sessA).messages.length : Int)
        ≤ cfgOne.maxMessages) := by
  decide

/-- C1 amended: for every conversation saved under MaxMessages > 0, the
stored message list is the prune of the submitted one, and: every system
message is preserved by pruning (the system sublist is unchanged, in order);
when the system messages number fewer than MaxMessages the stored list has
length at most MaxMessages; but when the system messages alone reach or
exceed MaxMessages (and the list is over the cap) nothing is truncated: the
stored list is all system messages followed by all non-system messages, so
its length may exceed MaxMessages.  Since every Append operation ends in
SaveConversation, the same holds after any sequence of appends. -/
theorem memory_save_cap_amended (cfg : MemoryConfig) (st : Store)
    (now now2 : Int) (conv : ConversationMemory) (hM : 0 < cfg.maxMessages) :
    (loadConversation cfg (saveConversation cfg st now conv) now2
        conv.sessionID).messages
      = pruneMessages cfg.maxMessages conv.messages ∧
    (pruneMessages cfg.maxMessages conv.messages).filter
        (fun m => m.role.isSystemB)
      = conv.messages.filter (fun m => m.role.isSystemB) ∧
    (((conv.messages.filter (fun m => m.role.isSystemB)).length : Int)
        < cfg.maxMessages →
      ((pruneMessages cfg.maxMessages conv.messages).length : Int)
        ≤ cfg.maxMessages) ∧
    (cfg.maxMessages
        ≤ ((conv.messages.filter (fun m => m.role.isSystemB)).length : Int) →
      cfg.maxMessages < (conv.messages.length : Int) →
      pruneMessages cfg.maxMessages conv.messages
        = conv.messages.filter (fun m => m.role.isSystemB)
          ++ conv.messages.filter (fun m => !m.role.isSystemB)) := by
  refine ⟨?_, pruneMessages_filter_system _ _,
    fun h => pruneMessages_length_le _ _ hM h,
    fun h1 h2 => pruneMessages_headroom_nonpos _ _ h1 h2 hM⟩
  simp [loadConversation, saveConversation, getAny, setAny, buildKey]

/-- Witness for C1 amended: a cap of five on one system directive and seven
user turns keeps the system message and the four most recent user turns. -/
theorem memory_save_cap_amended_witness :
    0 < cfgFive.maxMessages ∧
    ((loadConversation cfgFive (saveConversation cfgFive emptyStore 3 convSeven)
        4 convSeven.sessionID).messages
      = pruneMessages cfgFive.maxMessages convSeven.messages ∧
    (pruneMessages cfgFive.maxMessages convSeven.messages).filter
        (fun m => m.role.isSystemB)
      = convSeven.messages.filter (fun m => m.role.isSystemB) ∧
    (((convSeven.messages.filter (fun m => m.role.isSystemB)).length : Int)
        < cfgFive.maxMessages →
      ((pruneMessages cfgFive.maxMessages convSeven.messages).length : Int)
        ≤ cfgFive.maxMessages) ∧
    (cfgFive.maxMessages
        ≤ ((convSeven.messages.filter (fun m => m.role.isSystemB)).length : Int) →
      cfgFive.maxMessages < (convSeven.messages.length : Int) →
      pruneMessages cfgFive.maxMessages convSeven.messages
        = convSeven.messages.filter (fun m => m.role.isSystemB)
          ++ convSeven.messages.filter (fun m => !m.role.isSystemB))) :=
  ⟨by decide, memory_save_cap_amended cfgFive emptyStore 3 4 convSeven (by decide)⟩

/-! ## Claim C8 -/

/-- C8: when the value stored at the conversation key is absent or does not
decode to a conversation document, LoadConversation returns a freshly
constructed conversation carrying the session id, an empty message list, the
current time as both timestamps, and an allocated (non-nil) empty metadata
map — and no error (the function is total). -/
theorem load_missing_returns_fresh (cfg : MemoryConfig) (st : Store)
    (now : Int) (sessionID : String)
    (h : getAny st (buildKey cfg sessionID) = none) :
    loadConversation cfg st now sessionID
      = { sessionID := sessionID, messages := [], createdAt := now,
          updatedAt := now, metadata := some [] } := by
  simp [loadConversation, h]

/-- Witness for C8 at a store holding the empty-string tombstone a delete
writes: the value is present but undecodable, and the load is fresh. -/
theorem load_missing_returns_fresh_witness :
    getAny storeTomb (buildKey cfgOne sessA) = none ∧
    loadConversation cfgOne storeTomb 7 sessA
      = { sessionID := sessA, messages := [], createdAt := 7,
          updatedAt := 7, metadata := some [] } :=
  ⟨by decide, load_missing_returns_fresh cfgOne storeTomb 7 sessA (by decide)⟩

/-! ## Claim C4 -/

/-- C4: with an observability hook configured, a synchronous call fires
BeforeRequest once followed by exactly one AfterResponse carrying the
provider's response and error, on success and on failure alike, and returns
the provider result verbatim; a streaming call fires BeforeRequest once
followed by exactly one WrapStream when the provider returns a stream, and
by exactly one AfterResponse with a nil response when stream construction
fails. -/
theorem hook_before_after_pairing (r : CallResult ChatCompletionResponse)
    (sOK : StreamHandle) (e : Err) :
    (createChatCompletion true r).1
        = [HookEvent.beforeRequest, HookEvent.afterResponse r.toResp r.toErr] ∧
    (createChatCompletion true r).2 = r ∧
    (createChatCompletionStream true (CallResult.ok sOK)).1
        = [HookEvent.beforeRequest, HookEvent.wrapStream] ∧
    (createChatCompletionStream true (CallResult.fail e)).1
        = [HookEvent.beforeRequest, HookEvent.afterResponse none (some e)] := by
  refine ⟨?_, ?_, ?_, ?_⟩ <;>
    simp [createChatCompletion, createChatCompletionStream]

/-! ## Claim C9 -/

/-- C9: when the underlying LLM call of CreateChatCompletionWithMemory
succeeds with at least one choice and the subsequent memory append fails,
the method still returns the successful response with a nil error: the
append of the request messages and the first choice's message was attempted
and its failure is only logged, never propagated. -/
theorem memory_save_failure_suppressed (reqMessages : List Message)
    (response : ChatCompletionResponse) (choice : ChatCompletionChoice)
    (restChoices : List ChatCompletionChoice) (e : Err)
    (hc : response.choices = choice :: restChoices) :
    createChatCompletionWithMemory reqMessages (CallResult.ok response) (some e)
      = (CallResult.ok response,
         some (reqMessages ++ [choice.message]), some e) := by
  simp [createChatCompletionWithMemory, hc]

/-- Witness for C9: a failing append after a one-choice success is logged
while the successful response is returned unchanged. -/
theorem memory_save_failure_suppressed_witness :
    respOK.choices
        = { index := 0, message := mkMsg .assistant ("Hello"), delta := none,
            finishReason := none } :: [] ∧
    createChatCompletionWithMemory [mkMsg .user ("Hi")] (CallResult.ok respOK)
        (some ("kv write failed"))
      = (CallResult.ok respOK,
         some ([mkMsg .user ("Hi")] ++ [mkMsg .assistant ("Hello")]),
         some ("kv write failed")) :=
  ⟨by decide,
   memory_save_failure_suppressed [mkMsg .user ("Hi")] respOK
     { index := 0, message := mkMsg .assistant ("Hello"), delta := none,
       finishReason := none } [] ("kv write failed") (by decide)⟩

/-! ## Lemmas about the memory-aware stream decorator -/

theorem memRecv_closed_saves (reqMessages : List Message) (s : MemAwareState)
    (h : s.streamClosed = true) :
    (memRecv reqMessages s).2.saves = s.saves ∧
    (memRecv reqMessages s).2.streamClosed = true := by
  unfold memRecv
  cases hr : s.rest with
  | nil => simp [h]
  | cons w rest =>
      cases w with
      | failure e => simp [h]
      | chunk c =>
          cases hc : c.choices with
          | nil => simp [h, hc]
          | cons choice more =>
              cases hd : choice.delta <;> simp [h, hc, hd]

theorem memClose_closed_saves (reqMessages : List Message) (s : MemAwareState)
    (h : s.streamClosed = true) :
    (memClose reqMessages s).saves = s.saves ∧
    (memClose reqMessages s).streamClosed = true := by
  simp [memClose, h]

theorem runMemOps_closed_saves (reqMessages : List Message)
    (ops : List MemOp) : ∀ (s : MemAwareState),
    s.streamClosed = true →
    (runMemOps reqMessages ops s).saves = s.saves := by
  induction ops with
  | nil => intro s h; rfl
  | cons op rest ih =>
      intro s h
      cases op with
      | recv =>
          have hstep := memRecv_closed_saves reqMessages s h
          simpa [runMemOps, hstep.1] using ih _ hstep.2
      | close =>
          have hstep := memClose_closed_saves reqMessages s h
          simpa [runMemOps, hstep.1] using ih _ hstep.2

theorem saveBuffered_saves_le (reqMessages : List Message) (s : MemAwareState) :
    (saveBufferedResponse reqMessages s).saves.length ≤ s.saves.length + 1 ∧
    (saveBufferedResponse reqMessages s).streamClosed = s.streamClosed := by
  unfold saveBufferedResponse
  split <;> simp

theorem memInv_step (reqMessages : List Message) (op : MemOp)
    (s : MemAwareState)
    (hinv : s.saves.length ≤ 1 ∧ (s.streamClosed = false → s.saves = [])) :
    (match op with
     | MemOp.recv => (memRecv reqMessages s).2
     | MemOp.close => memClose reqMessages s).saves.length ≤ 1 ∧
    ((match op with
      | MemOp.recv => (memRecv reqMessages s).2
      | MemOp.close => memClose reqMessages s).streamClosed = false →
      (match op with
       | MemOp.recv => (memRecv reqMessages s).2
       | MemOp.close => memClose reqMessages s).saves = []) := by
  have hsave : ∀ t : MemAwareState, t.saves = [] →
      (saveBufferedResponse reqMessages t).saves.length ≤ 1 := by
    intro t ht
    unfold saveBufferedResponse
    split <;> simp [ht]
  cases op with
  | close =>
      simp only []
      unfold memClose
      cases hcl : s.streamClosed with
      | false =>
          have hempty := hinv.2 hcl
          simp only [hcl, Bool.not_false, if_pos]
          exact ⟨hsave s hempty, by simp⟩
      | true => simpa [hcl] using hinv
  | recv =>
      simp only []
      unfold memRecv
      cases hr : s.rest with
      | nil =>
          cases hcl : s.streamClosed with
          | false =>
              have hempty := hinv.2 hcl
              simp only [hcl, Bool.not_false, if_pos]
              exact ⟨hsave s hempty, by simp⟩
          | true => simpa [hcl] using hinv
      | cons w rest =>
          cases w with
          | failure e =>
              cases hcl : s.streamClosed with
              | false =>
                  have hempty := hinv.2 hcl
                  by_cases he : e = ("EOF")
                  · simp only [he, hcl]
                    simp only [Bool.not_false, and_true, if_pos rfl]
                    refine ⟨?_, by simp⟩
                    have : ({ s with rest := rest } : MemAwareState).saves = [] :=
                      hempty
                    exact hsave _ this
                  · simp [hcl, he, hinv.1, hempty]
              | true => simp [hcl, hinv.1, fun h => (hinv.2 h)]
          | chunk c =>
              cases hc : c.choices with
              | nil => simpa [hc] using hinv
              | cons choice more =>
                  cases hd : choice.delta <;> simpa [hc, hd] using hinv

theorem runMemOps_inv (reqMessages : List Message) (ops : List MemOp) :
    ∀ (s : MemAwareState),
    s.saves.length ≤ 1 ∧ (s.streamClosed = false → s.saves = []) →
    (runMemOps reqMessages ops s).saves.length ≤ 1 := by
  induction ops with
  | nil => intro s hinv; exact hinv.1
  | cons op rest ih =>
      intro s hinv
      have hstep := memInv_step reqMessages op s hinv
      cases op with
      | recv => exact ih _ hstep
      | close => exact ih _ hstep

/-! ## Claim C5 -/

/-- C5: over any sequence of Recv and Close calls on a memory-aware stream,
the append of the assembled reply to the stored conversation is performed at
most once (the saves list of the final state has at most one entry), and
once the save gate has fired no later operation performs another append. -/
theorem memory_stream_saves_at_most_once (reqMessages : List Message)
    (events : List WireRecv) (ops ops2 : List MemOp) (s : MemAwareState) :
    (runMemOps reqMessages ops (initMemAware events)).saves.length ≤ 1 ∧
    (runMemOps reqMessages ops2
        { s with streamClosed := true }).saves
      = ({ s with streamClosed := true } : MemAwareState).saves := by
  constructor
  · exact runMemOps_inv reqMessages ops (initMemAware events)
      ⟨by simp [initMemAware], fun _ => by simp [initMemAware]⟩
  · exact runMemOps_closed_saves reqMessages ops2 _ rfl

/-! ## Claim C6 -/

/-- C6: for the stream objects of all three dialects (OpenAI-compatible,
Anthropic, Ollama), Close can be called any number of times: the second
call returns success (nil error) and leaves the stream state unchanged, so
every subsequent call does too. -/
theorem stream_close_idempotent (so : OpenAI.Stream)
    (sa : AnthropicStream.Stream) (sl : Ollama.Stream) :
    OpenAI.Stream.close (OpenAI.Stream.close so).2
        = (none, (OpenAI.Stream.close so).2) ∧
    AnthropicStream.Stream.close (AnthropicStream.Stream.close sa).2
        = (none, (AnthropicStream.Stream.close sa).2) ∧
    Ollama.Stream.close (Ollama.Stream.close sl).2
        = (none, (Ollama.Stream.close sl).2) := by
  refine ⟨?_, ?_, ?_⟩
  · cases h : so.closed <;>
      simp [OpenAI.Stream.close, HTTPBody.close, h]
  · cases h : sa.closed <;>
      simp [AnthropicStream.Stream.close, HTTPBody.close, h]
  · cases h : sl.body.closed <;>
      simp [Ollama.Stream.close, HTTPBody.close, h]

/-! ## Lemmas about the OpenAI SSE scanner loop -/

theorem recvLoop_blank (dec : String → Option OpenAI.StreamChunk)
    (scanErr : Option Err) (ls : List String) :
    OpenAI.recvLoop dec scanErr (("") :: ls) = OpenAI.recvLoop dec scanErr ls := by
  simp [OpenAI.recvLoop]

theorem recvLoop_nondata (dec : String → Option OpenAI.StreamChunk)
    (scanErr : Option Err) (line : String) (ls : List String)
    (h0 : ¬ line = ("")) (h1 : OpenAI.strHasPrefix OpenAI.sseDataTag line = false) :
    OpenAI.recvLoop dec scanErr (line :: ls) = OpenAI.recvLoop dec scanErr ls := by
  simp [OpenAI.recvLoop, h0, h1]

theorem line_of_prefix_ne_empty (line : String)
    (h1 : OpenAI.strHasPrefix OpenAI.sseDataTag line = true) : ¬ line = ("") := by
  intro he
  subst he
  exact absurd h1 (by decide)

theorem recvLoop_sentinel (dec : String → Option OpenAI.StreamChunk)
    (scanErr : Option Err) (line : String) (ls : List String)
    (h1 : OpenAI.strHasPrefix OpenAI.sseDataTag line = true)
    (h2 : OpenAI.strTrimPrefix OpenAI.sseDataTag line = OpenAI.doneSentinel) :
    OpenAI.recvLoop dec scanErr (line :: ls) = (OpenAI.RecvRes.eof, ls) := by
  simp [OpenAI.recvLoop, line_of_prefix_ne_empty line h1, h1, h2]

theorem recvLoop_malformed (dec : String → Option OpenAI.StreamChunk)
    (scanErr : Option Err) (line : String) (ls : List String)
    (h1 : OpenAI.strHasPrefix OpenAI.sseDataTag line = true)
    (h2 : ¬ OpenAI.strTrimPrefix OpenAI.sseDataTag line = OpenAI.doneSentinel)
    (h3 : dec (OpenAI.strTrimPrefix OpenAI.sseDataTag line) = none) :
    OpenAI.recvLoop dec scanErr (line :: ls) = OpenAI.recvLoop dec scanErr ls := by
  simp [OpenAI.recvLoop, line_of_prefix_ne_empty line h1, h1, h2, h3]

theorem recvLoop_chunk (dec : String → Option OpenAI.StreamChunk)
    (scanErr : Option Err) (line : String) (ls : List String)
    (c : OpenAI.StreamChunk)
    (h1 : OpenAI.strHasPrefix OpenAI.sseDataTag line = true)
    (h2 : ¬ OpenAI.strTrimPrefix OpenAI.sseDataTag line = OpenAI.doneSentinel)
    (h3 : dec (OpenAI.strTrimPrefix OpenAI.sseDataTag line) = some c) :
    OpenAI.recvLoop dec scanErr (line :: ls) = (OpenAI.RecvRes.chunk c, ls) := by
  simp [OpenAI.recvLoop, line_of_prefix_ne_empty line h1, h1, h2, h3]

theorem recvLoop_eof_cases (dec : String → Option OpenAI.StreamChunk)
    (line : String) (ls : List String)
    (heof : (OpenAI.recvLoop dec none (line :: ls)).1 = OpenAI.RecvRes.eof) :
    (OpenAI.strHasPrefix OpenAI.sseDataTag line = true ∧
      OpenAI.strTrimPrefix OpenAI.sseDataTag line = OpenAI.doneSentinel) ∨
    (OpenAI.recvLoop dec none ls).1 = OpenAI.RecvRes.eof := by
  by_cases h0 : line = ("")
  · subst h0
    rw [recvLoop_blank] at heof
    exact Or.inr heof
  · by_cases h1 : OpenAI.strHasPrefix OpenAI.sseDataTag line = true
    · by_cases h2 : OpenAI.strTrimPrefix OpenAI.sseDataTag line = OpenAI.doneSentinel
      · exact Or.inl ⟨h1, h2⟩
      · cases h3 : dec (OpenAI.strTrimPrefix OpenAI.sseDataTag line) with
        | none =>
            rw [recvLoop_malformed dec none line ls h1 h2 h3] at heof
            exact Or.inr heof
        | some c =>
            rw [recvLoop_chunk dec none line ls c h1 h2 h3] at heof
            exact absurd heof (by simp)
    · have h1f : OpenAI.strHasPrefix OpenAI.sseDataTag line = false := by
        simpa using h1
      rw [recvLoop_nondata dec none line ls h0 h1f] at heof
      exact Or.inr heof

/-! ## Claim C7 -/

/-- C7: the OpenAI-dialect SSE Recv ignores blank lines; reading the literal
sentinel data line returns the canonical end-of-stream signal with no
further lines consumed; a data line whose JSON payload is malformed is
skipped rather than fatal; a well-formed non-sentinel data payload yields
exactly one chunk; whenever a scan returns end-of-stream, the line that
produced it was the sentinel data line or the remaining input scans to
end-of-stream (exhaustion) — no other line produces it; and Recv on a
closed stream fails with the stream-closed error while an open stream runs
the scanner loop. -/
theorem sse_recv_dialect (dec : String → Option OpenAI.StreamChunk)
    (scanErr : Option Err) (line : String) (ls : List String)
    (c : OpenAI.StreamChunk) (s : OpenAI.Stream) :
    (OpenAI.recvLoop dec scanErr (("") :: ls)
        = OpenAI.recvLoop dec scanErr ls) ∧
    (OpenAI.strHasPrefix OpenAI.sseDataTag line = true →
      OpenAI.strTrimPrefix OpenAI.sseDataTag line = OpenAI.doneSentinel →
      OpenAI.recvLoop dec scanErr (line :: ls) = (OpenAI.RecvRes.eof, ls)) ∧
    (OpenAI.strHasPrefix OpenAI.sseDataTag line = true →
      ¬ OpenAI.strTrimPrefix OpenAI.sseDataTag line = OpenAI.doneSentinel →
      dec (OpenAI.strTrimPrefix OpenAI.sseDataTag line) = none →
      OpenAI.recvLoop dec scanErr (line :: ls)
        = OpenAI.recvLoop dec scanErr ls) ∧
    (OpenAI.strHasPrefix OpenAI.sseDataTag line = true →
      ¬ OpenAI.strTrimPrefix OpenAI.sseDataTag line = OpenAI.doneSentinel →
      dec (OpenAI.strTrimPrefix OpenAI.sseDataTag line) = some c →
      OpenAI.recvLoop dec scanErr (line :: ls)
        = (OpenAI.RecvRes.chunk c, ls)) ∧
    ((OpenAI.recvLoop dec none (line :: ls)).1 = OpenAI.RecvRes.eof →
      (OpenAI.strHasPrefix OpenAI.sseDataTag line = true ∧
        OpenAI.strTrimPrefix OpenAI.sseDataTag line = OpenAI.doneSentinel) ∨
      (OpenAI.recvLoop dec none ls).1 = OpenAI.RecvRes.eof) ∧
    (s.closed = true →
      OpenAI.Stream.recv dec s = (OpenAI.RecvRes.errClosed, s)) ∧
    (s.closed = false →
      OpenAI.Stream.recv dec s
        = ((OpenAI.recvLoop dec s.scanErr s.lines).1,
           { s with lines := (OpenAI.recvLoop dec s.scanErr s.lines).2 })) := by
  refine ⟨recvLoop_blank dec scanErr ls,
    fun h1 h2 => recvLoop_sentinel dec scanErr line ls h1 h2,
    fun h1 h2 h3 => recvLoop_malformed dec scanErr line ls h1 h2 h3,
    fun h1 h2 h3 => recvLoop_chunk dec scanErr line ls c h1 h2 h3,
    fun heof => recvLoop_eof_cases dec line ls heof,
    fun h => ?_, fun h => ?_⟩
  · simp [OpenAI.Stream.recv, h]
  · simp [OpenAI.Stream.recv, h]

/-- Witness for C7 with a concrete decoder: a malformed data line is
skipped, a well-formed payload yields its chunk, the sentinel produces
end-of-stream, and the closed and open Recv paths behave as stated. -/
theorem sse_recv_dialect_witness :
    (OpenAI.recvLoop dec0 none [("data: bad"), ("data: ok")]
        = OpenAI.recvLoop dec0 none [("data: ok")]) ∧
    (OpenAI.recvLoop dec0 none [("data: ok")]
        = (OpenAI.RecvRes.chunk chunk0, [])) ∧
    ((OpenAI.strHasPrefix OpenAI.sseDataTag ("data: [DONE]") = true ∧
       OpenAI.strTrimPrefix OpenAI.sseDataTag ("data: [DONE]") = OpenAI.doneSentinel) ∨
     (OpenAI.recvLoop dec0 none []).1 = OpenAI.RecvRes.eof) ∧
    (OpenAI.Stream.recv dec0 streamExClosed
        = (OpenAI.RecvRes.errClosed, streamExClosed)) ∧
    (OpenAI.Stream.recv dec0 streamEx
        = ((OpenAI.recvLoop dec0 streamEx.scanErr streamEx.lines).1,
           { streamEx with
               lines := (OpenAI.recvLoop dec0 streamEx.scanErr streamEx.lines).2 })) :=
  ⟨(sse_recv_dialect dec0 none ("data: bad") [("data: ok")] chunk0
      streamEx).2.2.1 (by decide) (by decide) (by decide),
   (sse_recv_dialect dec0 none ("data: ok") [] chunk0
      streamEx).2.2.2.1 (by decide) (by decide) (by decide),
   (sse_recv_dialect dec0 none ("data: [DONE]") [] chunk0
      streamEx).2.2.2.2.1 (by decide),
   (sse_recv_dialect dec0 none ("x") [] chunk0
      streamExClosed).2.2.2.2.2.1 (by decide),
   (sse_recv_dialect dec0 none ("x") [] chunk0
      streamEx).2.2.2.2.2.2 (by decide)⟩

end Gollm
